import Mathlib

/-!
A shallow embedding of the `grace` task-chain library (task.go, the
verification functions, and the generic `TaskChain`), together with
theorems checking the natural-language specification against it.

Go's reflected types are modelled by the closed inductive `GoType`
covering the concrete and interface types the development needs;
runtime values by `Value`; Go `error` values by `GoError`.
-/

set_option autoImplicit false

namespace Grace

/-- The Go types appearing in the verification development: the concrete
types `int`, `string`, `struct \x7b\x7d`, a concrete type `*grace.implError`
implementing the `error` interface, and the interface types `error` and
`interface \x7b\x7d` (i.e. `any`). -/
inductive GoType where
  | tInt
  | tString
  | tStruct0
  | tErrImpl
  | tError
  | tAny
deriving DecidableEq, Repr

/-- Go's `fmt` rendering of each type, as used in error messages. -/
def GoType.str : GoType → String
  | .tInt => "int"
  | .tString => "string"
  | .tStruct0 => "struct \x7b\x7d"
  | .tErrImpl => "*grace.implError"
  | .tError => "error"
  | .tAny => "interface \x7b\x7d"

/-- `a.AssignableTo(b)` of Go's reflect package, restricted to `GoType`:
a type is assignable to itself; every type is assignable to `interface \x7b\x7d`;
exactly the types `error` and `*grace.implError` are assignable to the
`error` interface. -/
def assignableTo (a b : GoType) : Bool :=
  a == b || b == .tAny || (b == .tError && (a == .tError || a == .tErrImpl))

/-- Go `error` values. `mk` is `errors.New`/`fmt.Errorf` without `%w`;
`wrap pre e` is `fmt.Errorf` with a trailing `%w` (message `pre ++ e.msg`);
`join1`/`join2` are `errors.Join` applied to one resp. two non-nil errors. -/
inductive GoError where
  | mk (msg : String)
  | wrap (pre : String) (e : GoError)
  | join1 (a : GoError)
  | join2 (a b : GoError)
deriving DecidableEq, Repr

/-- The rendered error message (`Error()`), with `errors.Join` printing
its members separated by a newline. -/
def GoError.msg : GoError → String
  | .mk s => s
  | .wrap pre e => pre ++ e.msg
  | .join1 a => a.msg
  | .join2 a b => a.msg ++ "\n" ++ b.msg

/-- `errors.Is`: the target is found either directly or by unwrapping
through `fmt.Errorf`'s `%w` wrapping or through `errors.Join` members. -/
def errIs (e target : GoError) : Bool :=
  e == target ||
    match e with
    | .mk _ => false
    | .wrap _ inner => errIs inner target
    | .join1 a => errIs a target
    | .join2 a b => errIs a target || errIs b target

/-- `errors.Join` on two arguments, where `none` is a nil error: it yields
nil when both are nil and otherwise a join of the non-nil arguments. -/
def goJoin : Option GoError → Option GoError → Option GoError
  | none, none => none
  | some a, none => some (.join1 a)
  | none, some b => some (.join1 b)
  | some a, some b => some (.join2 a b)

/-- Runtime values threaded through a chain: an `int`, a `string`, a
`struct \x7b\x7d` value, a non-nil value of the concrete error type
`*grace.implError`, or a nil interface value (the value of an untyped
`nil`, or of a nil `error` result). -/
inductive Value where
  | vInt (n : Int)
  | vStr (s : String)
  | vUnit
  | vErrVal (e : GoError)
  | vNilIface
deriving DecidableEq, Repr

/-- `reflect.TypeOf` / the dynamic type of a value: a nil interface value
has no dynamic type. -/
def dynType : Value → Option GoType
  | .vInt _ => some .tInt
  | .vStr _ => some .tString
  | .vUnit => some .tStruct0
  | .vErrVal _ => some .tErrImpl
  | .vNilIface => none

/-- The type assertion `v.Interface().(T)`: it panics (`none`) on a nil
interface value and otherwise succeeds exactly when the dynamic type is
assignable to the asserted type. -/
def castTo (v : Value) (t : GoType) : Option Value :=
  match dynType v with
  | none => none
  | some d => if assignableTo d t then some v else none

/-- The two-clause type assertion `err, ok := v.Interface().(error)`
combined with `ok && err != nil`: only a value of the concrete error
type is a non-nil error. -/
def asErr : Value → Option GoError
  | .vErrVal e => some e
  | _ => none

/-- `Zero[T]()`, i.e. `*new(T)`: the zero value of each modelled type
(nil interface values for the interface types). -/
def zeroVal : GoType → Value
  | .tInt => .vInt 0
  | .tString => .vStr ""
  | .tStruct0 => .vUnit
  | .tErrImpl => .vErrVal (.mk "")
  | .tError => .vNilIface
  | .tAny => .vNilIface

/-- `hasErrorOut` of task.go: the function has at least one output and its
last declared output type is assignable to the `error` interface.
(`NumOut() > 0` is exactly when the list of outputs has a last element.) -/
def hasErrorOutFn (outs : List GoType) : Bool :=
  match outs.getLast? with
  | some t => assignableTo t .tError
  | none => false

/-- `getReturnValueTypes` of task.go: the declared output types minus the
trailing error slot when `hasErrorOut` holds. -/
def getReturnValueTypes (outs : List GoType) (hasErrOut : Bool) : List GoType :=
  if outs.length = 0 then []
  else outs.take (outs.length - (if hasErrOut then 1 else 0))

/-- A `Task` of task.go. The reflected `Fn` is split into its declared
input types, declared output types and a semantic function `body`
standing for `Fn.Call` (Go guarantees `Call` returns exactly `NumOut()`
values; bodies are intended to respect that). `cleanup` is `none` when no
cleanup is configured, and otherwise `some r` where `r` is the error the
cleanup returns (`none` for a succeeding cleanup). `returnValueTypes` and
`hasErrorOut` are the fields precomputed by `NewTask`. -/
structure Task where
  name : String
  fnIn : List GoType
  fnOut : List GoType
  body : List Value → List Value
  cleanup : Option (Option GoError)
  returnValueTypes : List GoType
  hasErrorOut : Bool

/-- The success path of `NewTask`: it stores the callable and precomputes
`hasErrorOut` and `ReturnValueTypes` from the declared output types. -/
def mkTask (name : String) (cleanup : Option (Option GoError))
    (fnIn fnOut : List GoType) (body : List Value → List Value) : Task :=
  let he := hasErrorOutFn fnOut
  { name := name, fnIn := fnIn, fnOut := fnOut, body := body,
    cleanup := cleanup, hasErrorOut := he,
    returnValueTypes := getReturnValueTypes fnOut he }

/-- `IncompatibleFunctionSignatureErr`. -/
def IncompatibleFunctionSignatureErr : GoError :=
  .mk "incompatible task function signatures"

/-- The body of format string `invalidParamCountFmt` applied to its
arguments. -/
def invalidParamCountMsg (outName : String) (outCount : Nat)
    (inName : String) (inCount : Nat) : String :=
  outName ++ " has " ++ toString outCount ++ " output(s), but " ++
    inName ++ " expects " ++ toString inCount ++ " input(s)"

/-- The body of format string `invalidParamTypeFmt` applied to its
arguments. -/
def invalidParamTypeMsg (outName inName : String) (outTyp inTyp : GoType) : String :=
  "between " ++ outName ++ " and " ++ inName ++ ": " ++ outTyp.str ++
    " is not assignable to " ++ inTyp.str

/-- The position loop of `verifyTaskCompatibility`: at each position `i`
the source tests `input.Fn.Type().In(i).AssignableTo(typ)` where `typ` is
`output.ReturnValueTypes[i]`, i.e. whether the consumer input type is
assignable to the producer output type. -/
def verifyCompatLoop (outName inName : String) :
    Nat → List GoType → List GoType → Option GoError
  | _, [], _ => none
  | _, _, [] => none
  | i, outTyp :: outRest, inTyp :: inRest =>
    if !assignableTo inTyp outTyp then
      some (.join2 IncompatibleFunctionSignatureErr
        (.mk (invalidParamTypeMsg outName inName outTyp inTyp)))
    else verifyCompatLoop outName inName (i + 1) outRest inRest

/-- `verifyTaskCompatibility`: a count check on the producer's
`ReturnValueTypes` against the consumer's `NumIn`, then the position
loop. The error is `errors.Join(IncompatibleFunctionSignatureErr, err)`. -/
def verifyTaskCompatibility (output input : Task) : Option GoError :=
  if output.returnValueTypes.length ≠ input.fnIn.length then
    some (.join2 IncompatibleFunctionSignatureErr
      (.mk (invalidParamCountMsg output.name output.returnValueTypes.length
        input.name input.fnIn.length)))
  else verifyCompatLoop output.name input.name 0 output.returnValueTypes input.fnIn

/-- `verifyReturnType[T]`: a no-op when the last task declares no outputs,
otherwise the raw final declared output type (`Out(NumOut()-1)`, the error
slot included when present) must be assignable to `T`. -/
def verifyReturnType (retTyp : GoType) (last : Task) : Option GoError :=
  match last.fnOut.getLast? with
  | none => none
  | some outTyp =>
    if !assignableTo outTyp retTyp then
      some (.mk ("return type " ++ outTyp.str ++
        " is not compatible to the last output type: " ++ retTyp.str))
    else none

/-- Outcome of a verification that can also crash: in Go, calling
`AssignableTo` on the nil `reflect.Type` of a nil argument panics. -/
inductive VerifyResult where
  | ok
  | err (e : GoError)
  | panicked (msg : String)
deriving DecidableEq, Repr

/-- The Go runtime's message for a nil-pointer method call. -/
def nilTypePanicMsg : String :=
  "runtime error: invalid memory address or nil pointer dereference"

/-- The position loop of `verifyInitialParams`: `reflect.TypeOf(p)` is the
dynamic type of the supplied argument, nil (and hence a panic at the
`AssignableTo` call) when the argument is a nil interface value. -/
def verifyInitialParamsLoop : Nat → List GoType → List Value → VerifyResult
  | _, [], _ => .ok
  | _, _, [] => .ok
  | i, expectedType :: restT, p :: restP =>
    match dynType p with
    | none => .panicked nilTypePanicMsg
    | some actualType =>
      if !assignableTo actualType expectedType then
        .err (.mk ("invalid input params: expected " ++ expectedType.str ++
          " at " ++ toString (i + 1) ++ " but got " ++ actualType.str))
      else verifyInitialParamsLoop (i + 1) restT restP

/-- `verifyInitialParams`: the supplied argument count must equal the
first function's `NumIn`, then each argument's runtime type must be
assignable to the corresponding declared parameter type. -/
def verifyInitialParams (firstIns : List GoType) (params : List Value) : VerifyResult :=
  if params.length ≠ firstIns.length then
    .err (.mk ("invalid input params: expected " ++ toString firstIns.length ++
      " params but got " ++ toString params.length))
  else verifyInitialParamsLoop 0 firstIns params

/-- Observable side effects of one `Run`: a task body being invoked, a
task's cleanup being invoked, the chain's cleanup being invoked. -/
inductive Event where
  | body (name : String)
  | taskCleanup (name : String)
  | chainCleanup
deriving DecidableEq, Repr

/-- Whether an event is a task-body invocation. -/
def isBodyEv : Event → Bool
  | .body _ => true
  | _ => false

/-- Prepend already-emitted events to a result carrying a trace. -/
def withEvents {α : Type} (evs : List Event) (r : α × List Event) : α × List Event :=
  (r.1, evs ++ r.2)

/-- `Task.doCleanup`: when a cleanup is configured it runs (one
`taskCleanup` event); a non-nil cleanup error is joined in front of the
pending error, a nil cleanup result leaves the pending error untouched. -/
def Task.doCleanup (t : Task) (v : List Value) (err : Option GoError) :
    (List Value × Option GoError) × List Event :=
  match t.cleanup with
  | none => ((v, err), [])
  | some none => ((v, err), [.taskCleanup t.name])
  | some (some cuErr) => ((v, goJoin (some cuErr) err), [.taskCleanup t.name])

/-- `Task.Run`: call the body, then, when the task has an error out,
either surface a non-nil final error (dropping all data outputs, the
returned slice being nil) or strip the trailing error slot; in all cases
finish through `Task.doCleanup`. (`Fn.Call` returns exactly `NumOut()`
values, so with an error out the returned list is never empty; `getLastD`
only fills that impossible case.) -/
def Task.run (t : Task) (params : List Value) :
    (List Value × Option GoError) × List Event :=
  let ret := t.body params
  withEvents [.body t.name] <|
    if t.hasErrorOut then
      match asErr (ret.getLastD .vNilIface) with
      | some e => t.doCleanup [] (some e)
      | none => t.doCleanup ret.dropLast none
    else
      t.doCleanup ret none

/-- A `TaskChain[T]`. The generic result type `T` is carried as the
`GoType` field `retType`; `cleanup` is modelled as for `Task`. -/
structure TaskChain where
  tasks : List Task
  cleanup : Option (Option GoError)
  name : String
  hasOutput : Bool
  retType : GoType

/-- A `TaskChainConfig`; nil entries of `Tasks` are `none`. -/
structure TaskChainConfig where
  name : String
  cleanup : Option (Option GoError)
  tasks : List (Option Task)

/-- The adjacent-pair loop of `NewTaskChain`: `verifyTaskCompatibility`
on each consecutive pair, stopping at the first failure. -/
def verifyAdjacentPairs : List Task → Option GoError
  | a :: b :: rest =>
    (match verifyTaskCompatibility a b with
     | some e => some e
     | none => verifyAdjacentPairs (b :: rest))
  | _ => none

/-- `NewTaskChain[T]`: filter out nil tasks preserving order; an empty
result yields a chain with no tasks, no output and — the other config
fields not being copied in that branch — a zero name and no cleanup.
Otherwise verify each adjacent pair, then `verifyReturnType` on the last
task, wrapping either failure with the chain's name; `hasOutput` records
whether the last task has any non-error outputs. -/
def NewTaskChain (retTyp : GoType) (config : TaskChainConfig) :
    Except GoError TaskChain :=
  let tasks := config.tasks.filterMap id
  match tasks.getLast? with
  | none =>
    .ok { tasks := [], cleanup := none, name := "", hasOutput := false,
          retType := retTyp }
  | some last =>
    match verifyAdjacentPairs tasks with
    | some e =>
      .error (.wrap ("failed to create task \x27" ++ config.name ++ "\x27: ") e)
    | none =>
      match verifyReturnType retTyp last with
      | some e =>
        .error (.wrap ("failed to create task \x27" ++ config.name ++ "\x27: ") e)
      | none =>
        .ok { tasks := tasks, hasOutput := last.returnValueTypes.length > 0,
              cleanup := config.cleanup, name := config.name, retType := retTyp }

/-- A cancellation context: `none` is a nil `ctx`; otherwise the value of
`ctx.Err()` as observed at the check performed before the `i`-th task. -/
def Ctx : Type := Option (Nat → Option GoError)

/-- `ctx.Err()` at the check before task `i` (nil context: no error). -/
def ctxErrAt : Ctx → Nat → Option GoError
  | none, _ => none
  | some f, i => f i

/-- The outcome of `TaskChain.Run`: a normal return of a value and an
error, or a runtime panic. -/
inductive Outcome where
  | ret (v : Value) (e : Option GoError)
  | panic (msg : String)
deriving DecidableEq, Repr

/-- The Go runtime's message prefix for a failed type assertion. -/
def castPanicMsg : String := "interface conversion"

/-- `TaskChain.doCleanup`: when a chain cleanup is configured it runs (one
`chainCleanup` event); a non-nil cleanup error is joined in front of the
pending error and the value is returned unchanged either way. -/
def TaskChain.doCleanup (tc : TaskChain) (v : Value) (err : Option GoError) :
    Outcome × List Event :=
  match tc.cleanup with
  | none => (.ret v err, [])
  | some none => (.ret v err, [.chainCleanup])
  | some (some e) => (.ret v (goJoin (some e) err), [.chainCleanup])

/-- The task loop of `TaskChain.Run` (`i` is the global task index): check
`ctx.Err()` before each task; run the task; on task failure wrap the error
with the task index; after the last task, return the zero value when the
value sequence is empty and otherwise assert the last value to `T`. -/
def runLoop (tc : TaskChain) (ctx : Ctx) :
    Nat → List Task → List Value → Outcome × List Event
  | _, [], current =>
    (match current.getLast? with
     | none => tc.doCleanup (zeroVal tc.retType) none
     | some lastV =>
       match castTo lastV tc.retType with
       | none => (.panic castPanicMsg, [])
       | some v => tc.doCleanup v none)
  | i, t :: rest, current =>
    match ctxErrAt ctx i with
    | some e => tc.doCleanup (zeroVal tc.retType) (some e)
    | none =>
      let ((results, err), evs) := t.run current
      match err with
      | some e =>
        withEvents evs (tc.doCleanup (zeroVal tc.retType)
          (some (.wrap ("error running task " ++ toString i ++ ": ") e)))
      | none => withEvents evs (runLoop tc ctx (i + 1) rest results)

/-- `TaskChain.Run`: an empty chain goes straight to cleanup with the zero
value and no error; otherwise the initial arguments are validated against
the first task's inputs (a failure is wrapped with the chain's name, a nil
argument panics) and the task loop runs on them. -/
def TaskChain.run (tc : TaskChain) (ctx : Ctx) (params : List Value) :
    Outcome × List Event :=
  match tc.tasks with
  | [] => tc.doCleanup (zeroVal tc.retType) none
  | t0 :: _ =>
    match verifyInitialParams t0.fnIn params with
    | .panicked m => (.panic m, [])
    | .err e =>
      tc.doCleanup (zeroVal tc.retType)
        (some (.wrap ("error running " ++ tc.name ++ ": ") e))
    | .ok => runLoop tc ctx 0 tc.tasks params

/-- Construct a chain from a config and run it: `none` when construction
fails. -/
def runNew (retTyp : GoType) (config : TaskChainConfig) (ctx : Ctx)
    (params : List Value) : Option (Outcome × List Event) :=
  match NewTaskChain retTyp config with
  | .error _ => none
  | .ok tc => some (tc.run ctx params)

/-- The error actually delivered after a cleanup hook has run: a failing
cleanup joins its error in front, otherwise the pending error stands. -/
def cleanupAdjust (cu : Option (Option GoError)) (err : Option GoError) :
    Option GoError :=
  match cu with
  | some (some ce) => goJoin (some ce) err
  | _ => err

/-- The error signalled by a task body on given arguments (the non-nil
final returned error of a task with an error out). -/
def taskBodyErr (t : Task) (params : List Value) : Option GoError :=
  if t.hasErrorOut then asErr ((t.body params).getLastD .vNilIface) else none

/-- Run the first `k` tasks of a list, threading values; `none` when the
list is exhausted early or some task among them fails. -/
def stepValues : List Task → List Value → Nat → Option (List Value)
  | _, cur, 0 => some cur
  | [], _, _ + 1 => none
  | t :: rest, cur, k + 1 =>
    match (t.run cur).1 with
    | (vals, none) => stepValues rest vals k
    | (_, some _) => none

/-- A non-nil value whose dynamic type is assignable to the given type. -/
def valHasType (v : Value) (ty : GoType) : Bool :=
  match dynType v with
  | some d => assignableTo d ty
  | none => false

/-- A value list matching a type list pointwise (same length). -/
def valsHaveTypes : List Value → List GoType → Bool
  | [], [] => true
  | v :: vs, ty :: tys => valHasType v ty && valsHaveTypes vs tys
  | _, _ => false

/-- The events a task's cleanup hook emits: one `taskCleanup` when a
cleanup is configured, nothing otherwise. -/
def taskCleanupEvs (t : Task) : List Event :=
  match t.cleanup with
  | none => []
  | some _ => [.taskCleanup t.name]

/-- The data values `Task.run` delivers: with an error out, nothing on a
signalled error and the outputs minus the trailing error slot otherwise;
without an error out, the outputs as-is. -/
def taskRunVals (t : Task) (params : List Value) : List Value :=
  if t.hasErrorOut then
    match asErr ((t.body params).getLastD .vNilIface) with
    | some _ => []
    | none => (t.body params).dropLast
  else t.body params

/-- The events a chain's cleanup hook emits. -/
def chainCleanupEvs (cu : Option (Option GoError)) : List Event :=
  match cu with
  | none => []
  | some _ => [.chainCleanup]

/-! Concrete fixtures mirroring the repository's test scenarios. -/

/-- `context.Background()`: a non-nil context that never reports an error. -/
def bgCtx : Ctx := some (fun _ => none)

/-- One step of decimal parsing: accept a digit character (code points 48
to 57) and accumulate its value. -/
def digitStep (acc : Option Nat) (c : Char) : Option Nat :=
  match acc with
  | none => none
  | some n => if 48 ≤ c.toNat ∧ c.toNat ≤ 57 then some (n * 10 + (c.toNat - 48)) else none

/-- `strconv.Atoi`, restricted to non-negative decimal input — enough for
the spec's scenarios. -/
def atoiNat (s : String) : Option Nat :=
  match s.data with
  | [] => none
  | cs => cs.foldl digitStep (some 0)

/-- Body of `func(s string) (int, error) \x7b return strconv.Atoi(s) \x7d`. -/
def atoiBody : List Value → List Value
  | [Value.vStr s] =>
    (match atoiNat s with
     | some n => [Value.vInt (Int.ofNat n), Value.vNilIface]
     | none =>
       [Value.vInt 0,
        Value.vErrVal (.mk ("strconv.Atoi: parsing " ++ s ++ ": invalid syntax"))])
  | _ => []

/-- Body of `func(n int) int \x7b return n * 10 \x7d`. -/
def times10Body : List Value → List Value
  | [Value.vInt n] => [Value.vInt (n * 10)]
  | _ => []

/-- The task named `first` of the reference tests: `string → (int, error)`. -/
def taskParse : Task :=
  mkTask "first" none [GoType.tString] [GoType.tInt, GoType.tError] atoiBody

/-- The task named `second` of the reference tests: `int → int`. -/
def taskTimes10 : Task :=
  mkTask "second" none [GoType.tInt] [GoType.tInt] times10Body

/-- The chain of the `must return value` scenario: result type `int`,
tasks `[first, second]`. -/
def cfgC8 : TaskChainConfig :=
  { name := "test_chain", cleanup := none,
    tasks := [some taskParse, some taskTimes10] }

/-- A producer task with a single output of type `int`. -/
def prodIntTask : Task :=
  mkTask "p" none [] [GoType.tInt] (fun _ => [Value.vInt 0])

/-- A consumer task with a single input of type `interface \x7b\x7d`. -/
def consAnyTask : Task :=
  mkTask "c" none [GoType.tAny] [] (fun _ => [])

/-- A task `func() (int, error)` returning `(5, nil)`. -/
def lastIntErrTask : Task :=
  mkTask "last" none [] [GoType.tInt, GoType.tError]
    (fun _ => [Value.vInt 5, Value.vNilIface])

/-- A one-task config whose last task returns `(int, error)`. -/
def cfgIntErr : TaskChainConfig :=
  { name := "c9", cleanup := none, tasks := [some lastIntErrTask] }

/-- A one-task config whose last task returns `(int, error)`, used with
chain result type `error`. -/
def cfgC2 : TaskChainConfig :=
  { name := "c2", cleanup := none, tasks := [some lastIntErrTask] }

/-- The chain cleanup error of the `cfgC3` fixture. -/
def ceC3 : GoError := .mk "cleanup failed"

/-- A task `func() int` returning `5`. -/
def fiveTask : Task :=
  mkTask "five" none [] [GoType.tInt] (fun _ => [Value.vInt 5])

/-- A one-task config with result type `int` whose chain cleanup fails. -/
def cfgC3 : TaskChainConfig :=
  { name := "c3chain", cleanup := some (some ceC3), tasks := [some fiveTask] }

/-- The chain `NewTaskChain[int]` builds from `cfgC3`. -/
def tcC3 : TaskChain :=
  { tasks := [fiveTask], cleanup := some (some ceC3), name := "c3chain",
    hasOutput := true, retType := GoType.tInt }

/-- A task body error fixture. -/
def taskErrC6 : GoError := .mk "e1"

/-- A task cleanup error fixture. -/
def cleanupErrC6 : GoError := .mk "e2"

/-- The task of the `must join Cleanup error` scenario: a body signalling
`e1` and a cleanup failing with `e2`. -/
def errBothTask : Task :=
  mkTask "test" (some (some cleanupErrC6)) [] [GoType.tError]
    (fun _ => [Value.vErrVal taskErrC6])

/-- The empty chain `NewTaskChain[struct \x7b\x7d]` builds from a config of
nil tasks. -/
def emptyChainS : TaskChain :=
  { tasks := [], cleanup := none, name := "", hasOutput := false,
    retType := GoType.tStruct0 }

/-- The config of the `must filter nil tasks` scenario. -/
def cfgNils : TaskChainConfig :=
  { name := "", cleanup := none, tasks := [none, none, none] }

/-- The task of the `must return error when args size does not match`
scenario: `func(a, b, c int) \x7b\x7d`. -/
def threeIntTask : Task :=
  mkTask "test_task" none [GoType.tInt, GoType.tInt, GoType.tInt] [] (fun _ => [])

/-- `context.Canceled`. -/
def ctxCanceledErr : GoError := .mk "context canceled"

/-- The first no-op task of the `must exit on context cancelled`
scenario. -/
def noopTask1 : Task := mkTask "t1" none [] [] (fun _ => [])

/-- The second no-op task of that scenario. -/
def noopTask2 : Task := mkTask "t2" none [] [] (fun _ => [])

/-- The chain of that scenario. -/
def tcC4 : TaskChain :=
  { tasks := [noopTask1, noopTask2], cleanup := none, name := "test_chain",
    hasOutput := false, retType := GoType.tAny }

/-- A context that reports `context.Canceled` from the check before the
second task onwards (the first task body cancelled it). -/
def fC4 : Nat → Option GoError :=
  fun i => if i = 0 then none else some ctxCanceledErr

/-- A config whose single task returns `(int, error)`, used with chain
result type `interface \x7b\x7d` (which the `error` slot is assignable
to, so construction succeeds). -/
def cfgC9W : TaskChainConfig :=
  { name := "w9", cleanup := none, tasks := [some lastIntErrTask] }

/-- The chain `NewTaskChain[any]` builds from `cfgC9W`. -/
def tcC9W : TaskChain :=
  { tasks := [lastIntErrTask], cleanup := none, name := "w9",
    hasOutput := true, retType := GoType.tAny }

/-- A task `func() int` returning `7`. -/
def sevenTask : Task :=
  mkTask "only" none [] [GoType.tInt] (fun _ => [Value.vInt 7])

/-- A one-task config whose last task has no error out, with result type
`int`. -/
def cfgC2W : TaskChainConfig :=
  { name := "w2", cleanup := none, tasks := [some sevenTask] }

/-- The chain `NewTaskChain[int]` builds from `cfgC2W`. -/
def tcC2W : TaskChain :=
  { tasks := [sevenTask], cleanup := none, name := "w2",
    hasOutput := true, retType := GoType.tInt }

/-- The config of that scenario. -/
def cfgC10 : TaskChainConfig :=
  { name := "test_task_chain", cleanup := none, tasks := [some threeIntTask] }

end Grace

namespace Grace

/-- Closed form of `Task.run`: the body event, then the cleanup events;
the delivered values are `taskRunVals` and the delivered error is the
body's error adjusted by the cleanup hook. -/
theorem task_run_eq (t : Task) (params : List Value) :
    t.run params =
      ((taskRunVals t params, cleanupAdjust t.cleanup (taskBodyErr t params)),
        Event.body t.name :: taskCleanupEvs t) := by
  unfold Task.run taskRunVals taskBodyErr
  cases hEO : t.hasErrorOut
  · rcases hcu : t.cleanup with _ | (_ | ce) <;>
      simp [Task.doCleanup, withEvents, cleanupAdjust, taskCleanupEvs, goJoin, hcu]
  · rcases hA : asErr ((t.body params).getLast?.getD .vNilIface) with _ | e <;>
      rcases hcu : t.cleanup with _ | (_ | ce) <;>
        simp [Task.doCleanup, withEvents, cleanupAdjust, taskCleanupEvs, goJoin, hcu, hA]

/-- Closed form of `TaskChain.doCleanup`: the value is passed through,
the error is adjusted by the cleanup hook, and the cleanup events are
emitted. -/
theorem chain_doCleanup_eq (tc : TaskChain) (v : Value) (err : Option GoError) :
    tc.doCleanup v err =
      (.ret v (cleanupAdjust tc.cleanup err), chainCleanupEvs tc.cleanup) := by
  rcases h : tc.cleanup with _ | (_ | ce) <;>
    simp [TaskChain.doCleanup, cleanupAdjust, chainCleanupEvs, goJoin, h]

/-- Unfolding of `runLoop` on the empty task list. -/
theorem runLoop_nil (tc : TaskChain) (ctx : Ctx) (i : Nat) (cur : List Value) :
    runLoop tc ctx i [] cur =
      (match cur.getLast? with
       | none => tc.doCleanup (zeroVal tc.retType) none
       | some lastV =>
         match castTo lastV tc.retType with
         | none => (.panic castPanicMsg, [])
         | some v => tc.doCleanup v none) := rfl

/-- Unfolding of `runLoop` on a task cons cell. -/
theorem runLoop_cons (tc : TaskChain) (ctx : Ctx) (i : Nat) (t : Task)
    (rest : List Task) (cur : List Value) :
    runLoop tc ctx i (t :: rest) cur =
      (match ctxErrAt ctx i with
       | some e => tc.doCleanup (zeroVal tc.retType) (some e)
       | none =>
         match t.run cur with
         | ((results, err), evs) =>
           match err with
           | some e =>
             withEvents evs (tc.doCleanup (zeroVal tc.retType)
               (some (.wrap ("error running task " ++ toString i ++ ": ") e)))
           | none => withEvents evs (runLoop tc ctx (i + 1) rest results)) := rfl

/-- Task-run traces contain no chain-cleanup event. -/
theorem task_run_count_chainCleanup (t : Task) (params : List Value) :
    ((t.run params).2).count Event.chainCleanup = 0 := by
  rw [task_run_eq]
  rcases hcu : t.cleanup with _ | _ <;> simp [taskCleanupEvs, hcu, List.count_cons]

/-- Task-run traces contain exactly one body event. -/
theorem task_run_countP_body (t : Task) (params : List Value) :
    ((t.run params).2).countP isBodyEv = 1 := by
  rw [task_run_eq]
  rcases hcu : t.cleanup with _ | _ <;>
    simp [taskCleanupEvs, hcu, List.countP_cons, isBodyEv]

/-- Chain-cleanup events: the chain-cleanup count matches whether a
cleanup is configured. -/
theorem chainCleanupEvs_count (cu : Option (Option GoError)) :
    (chainCleanupEvs cu).count Event.chainCleanup =
      (match cu with | none => 0 | some _ => 1) := by
  rcases cu with _ | _ <;> simp [chainCleanupEvs, List.count_cons]

/-- Chain-cleanup events: with a cleanup configured, the emitted trace is
the single chain-cleanup event. -/
theorem chainCleanupEvs_getLast (cu : Option (Option GoError)) (h : cu ≠ none) :
    (chainCleanupEvs cu).getLast? = some Event.chainCleanup := by
  rcases cu with _ | _
  · exact absurd rfl h
  · rfl

/-- C1: the position check of `verifyTaskCompatibility` fails on a
producer with a single `int` output feeding a consumer with a single
`interface \x7b\x7d` input — a pair that is compatible in the
producer-output-to-consumer-input direction the claim (and the code's own
message format) describes — because the source tests
`In(i).AssignableTo(Out(i))`, the reverse direction; the emitted message
even asserts the false statement that `int` is not assignable to
`interface \x7b\x7d`. -/
theorem C1_compat_direction_reversed :
    verifyTaskCompatibility prodIntTask consAnyTask =
      some (.join2 IncompatibleFunctionSignatureErr
        (.mk "between p and c: int is not assignable to interface \x7b\x7d")) ∧
    assignableTo GoType.tInt GoType.tAny = true := by
  constructor
  · rfl
  · rfl

/-- C8: the concrete two-task pipeline — task `first` parses a string to
an int, task `second` multiplies by 10 — built with result type `int`
returns `(100, nil)` on `Run(ctx, "10")`, invoking both bodies. -/
theorem C8_concrete_pipeline :
    runNew GoType.tInt cfgC8 bgCtx [Value.vStr "10"] =
      some (Outcome.ret (Value.vInt 100) none,
        [Event.body "first", Event.body "second"]) := by
  rfl

/-- C10: with the correct argument count but a nil value among the
initial arguments, `verifyInitialParams` computes a nil runtime type for
that argument and the assignability check panics, so `Run` does not
return normally. -/
theorem C10_nil_initial_param_panics :
    verifyInitialParams [GoType.tInt, GoType.tInt, GoType.tInt]
        [Value.vInt 1, Value.vNilIface, Value.vInt 3] =
      VerifyResult.panicked nilTypePanicMsg ∧
    runNew GoType.tAny cfgC10 bgCtx [Value.vInt 1, Value.vNilIface, Value.vInt 3] =
      some (Outcome.panic nilTypePanicMsg, []) := by
  constructor
  · rfl
  · rfl

/-- C2 counterexample: a chain with result type `error` whose only task
is `func() (int, error)` returning `(5, nil)` passes construction (the
construction-time check inspects the trailing `error` slot), yet its run
executes all tasks, ends with the non-empty value sequence `[5]`, and the
exit cast panics because `int` — the last element's type — is not
assignable to `error`. -/
theorem C2_counterexample_cast_panics :
    runNew GoType.tError cfgC2 bgCtx [] =
      some (Outcome.panic castPanicMsg, [Event.body "last"]) ∧
    assignableTo GoType.tInt GoType.tError = false := by
  constructor
  · rfl
  · rfl

/-- C3 counterexample: when every task succeeds and only the chain's
cleanup fails, `Run` returns the computed value `5` — not the zero value
of `int` — alongside the non-nil joined cleanup error. -/
theorem C3_counterexample_value_kept :
    runNew GoType.tInt cfgC3 bgCtx [] =
      some (Outcome.ret (Value.vInt 5) (some (GoError.join1 ceC3)),
        [Event.body "five", Event.chainCleanup]) ∧
    Value.vInt 5 ≠ zeroVal GoType.tInt := by
  constructor
  · rfl
  · decide

/-- Unfolding of `TaskChain.run` on a chain with no tasks. -/
theorem chainRun_nil (tc : TaskChain) (ctx : Ctx) (params : List Value)
    (h : tc.tasks = []) :
    tc.run ctx params = tc.doCleanup (zeroVal tc.retType) none := by
  unfold TaskChain.run
  rw [h]

/-- Unfolding of `TaskChain.run` on a chain with at least one task. -/
theorem chainRun_cons (tc : TaskChain) (ctx : Ctx) (params : List Value)
    (t0 : Task) (rest : List Task) (h : tc.tasks = t0 :: rest) :
    tc.run ctx params =
      (match verifyInitialParams t0.fnIn params with
       | .panicked m => (.panic m, [])
       | .err e =>
         tc.doCleanup (zeroVal tc.retType)
           (some (.wrap ("error running " ++ tc.name ++ ": ") e))
       | .ok => runLoop tc ctx 0 (t0 :: rest) params) := by
  unfold TaskChain.run
  rw [h]

/-- The cleanup events of a task contain no chain-cleanup event. -/
theorem taskCleanupEvs_count_chainCleanup (t : Task) :
    (taskCleanupEvs t).count Event.chainCleanup = 0 := by
  rcases hcu : t.cleanup with _ | _ <;> simp [taskCleanupEvs, hcu, List.count_cons]

/-- Every normal return of the task loop carries the chain-cleanup event
exactly once when a chain cleanup is configured (and then as the final
event), and never otherwise. -/
theorem runLoop_ret_cleanup (tc : TaskChain) (ctx : Ctx) :
    ∀ (ts : List Task) (i : Nat) (cur : List Value) (v : Value)
      (e : Option GoError) (evs : List Event),
      runLoop tc ctx i ts cur = (Outcome.ret v e, evs) →
      evs.count Event.chainCleanup =
        (match tc.cleanup with | none => 0 | some _ => 1) ∧
      (tc.cleanup ≠ none → evs.getLast? = some Event.chainCleanup) := by
  intro ts
  induction ts with
  | nil =>
    intro i cur v e evs h
    rw [runLoop_nil] at h
    rcases hL : cur.getLast? with _ | lastV
    · rw [hL, chain_doCleanup_eq] at h
      simp only [Prod.mk.injEq, Outcome.ret.injEq] at h
      obtain ⟨⟨-, -⟩, rfl⟩ := h
      exact ⟨chainCleanupEvs_count tc.cleanup, chainCleanupEvs_getLast tc.cleanup⟩
    · simp only [hL] at h
      rcases hC : castTo lastV tc.retType with _ | v'
      · simp only [hC, Prod.mk.injEq] at h
        exact absurd h.1 (by simp)
      · simp only [hC, chain_doCleanup_eq, Prod.mk.injEq, Outcome.ret.injEq] at h
        obtain ⟨⟨-, -⟩, rfl⟩ := h
        exact ⟨chainCleanupEvs_count tc.cleanup, chainCleanupEvs_getLast tc.cleanup⟩
  | cons t rest ih =>
    intro i cur v e evs h
    rw [runLoop_cons] at h
    rcases hCtx : ctxErrAt ctx i with _ | e0
    · simp only [hCtx, task_run_eq] at h
      rcases hE : cleanupAdjust t.cleanup (taskBodyErr t cur) with _ | e1
      · simp only [hE] at h
        rcases hR : runLoop tc ctx (i + 1) rest (taskRunVals t cur) with ⟨o, evs2⟩
        simp only [hR, withEvents, Prod.mk.injEq] at h
        obtain ⟨rfl, rfl⟩ := h
        obtain ⟨ihc, ihl⟩ := ih (i + 1) (taskRunVals t cur) v e evs2 hR
        constructor
        · rw [List.count_append, ihc, List.count_cons,
            taskCleanupEvs_count_chainCleanup]
          simp
        · intro hcu
          have h2 := ihl hcu
          have hne : evs2 ≠ [] := by
            intro hnil; rw [hnil] at h2; simp at h2
          rw [List.getLast?_append_of_ne_nil _ hne]
          exact h2
      · simp only [hE, chain_doCleanup_eq, withEvents, Prod.mk.injEq,
          Outcome.ret.injEq] at h
        obtain ⟨⟨-, -⟩, rfl⟩ := h
        constructor
        · rw [List.count_append, chainCleanupEvs_count, List.count_cons,
            taskCleanupEvs_count_chainCleanup]
          simp
        · intro hcu
          have hne : chainCleanupEvs tc.cleanup ≠ [] := by
            rcases hc : tc.cleanup with _ | _
            · exact absurd hc hcu
            · simp [chainCleanupEvs]
          rw [List.getLast?_append_of_ne_nil _ hne]
          exact chainCleanupEvs_getLast tc.cleanup hcu
    · simp only [hCtx, chain_doCleanup_eq, Prod.mk.injEq, Outcome.ret.injEq] at h
      obtain ⟨⟨-, -⟩, rfl⟩ := h
      exact ⟨chainCleanupEvs_count tc.cleanup, chainCleanupEvs_getLast tc.cleanup⟩

/-- C6: per task invocation, the trace is the body event followed by the
cleanup hook's events — the task cleanup thus runs after the body, exactly
once when configured and never otherwise, on every outcome branch — and a
failing cleanup's error is joined in front of (never replaces) the body's
error; per `Run` that returns, the chain-cleanup event occurs exactly once
when a chain cleanup is configured (then as the final event) and never
otherwise. -/
theorem C6_cleanup_exactly_once :
    (∀ (t : Task) (params : List Value),
      (t.run params).2 = Event.body t.name :: taskCleanupEvs t ∧
      ((t.run params).2).count (Event.taskCleanup t.name) =
        (match t.cleanup with | none => 0 | some _ => 1) ∧
      (∀ ce be, t.cleanup = some (some ce) → taskBodyErr t params = some be →
        (t.run params).1.2 = some (GoError.join2 ce be))) ∧
    (∀ (tc : TaskChain) (ctx : Ctx) (params : List Value) (v : Value)
      (e : Option GoError) (evs : List Event),
      tc.run ctx params = (Outcome.ret v e, evs) →
      evs.count Event.chainCleanup =
        (match tc.cleanup with | none => 0 | some _ => 1) ∧
      (tc.cleanup ≠ none → evs.getLast? = some Event.chainCleanup)) := by
  constructor
  · intro t params
    refine ⟨by rw [task_run_eq], ?_, ?_⟩
    · rw [task_run_eq]
      rcases hcu : t.cleanup with _ | _ <;>
        simp [taskCleanupEvs, hcu, List.count_cons]
    · intro ce be hcu hbe
      rw [task_run_eq, hcu, hbe]
      rfl
  · intro tc ctx params v e evs h
    rcases hts : tc.tasks with _ | ⟨t0, rest⟩
    · rw [chainRun_nil tc ctx params hts, chain_doCleanup_eq] at h
      simp only [Prod.mk.injEq, Outcome.ret.injEq] at h
      obtain ⟨⟨-, -⟩, rfl⟩ := h
      exact ⟨chainCleanupEvs_count tc.cleanup, chainCleanupEvs_getLast tc.cleanup⟩
    · rw [chainRun_cons tc ctx params t0 rest hts] at h
      rcases hV : verifyInitialParams t0.fnIn params with _ | e1 | m
      · simp only [hV] at h
        exact runLoop_ret_cleanup tc ctx (t0 :: rest) 0 params v e evs h
      · simp only [hV, chain_doCleanup_eq, Prod.mk.injEq, Outcome.ret.injEq] at h
        obtain ⟨⟨-, -⟩, rfl⟩ := h
        exact ⟨chainCleanupEvs_count tc.cleanup, chainCleanupEvs_getLast tc.cleanup⟩
      · simp only [hV, Prod.mk.injEq] at h
        exact absurd h.1 (by simp)

/-- Every normal return of the task loop that carries a non-nil error
either carries the zero value, or carries a value computed on the success
path with an error that is exactly the chain cleanup's failure. -/
theorem runLoop_ret_err_zero (tc : TaskChain) (ctx : Ctx) :
    ∀ (ts : List Task) (i : Nat) (cur : List Value) (v : Value) (e : GoError)
      (evs : List Event),
      runLoop tc ctx i ts cur = (Outcome.ret v (some e), evs) →
      v = zeroVal tc.retType ∨
        ∃ ce, tc.cleanup = some (some ce) ∧ e = GoError.join1 ce := by
  intro ts
  induction ts with
  | nil =>
    intro i cur v e evs h
    rw [runLoop_nil] at h
    rcases hL : cur.getLast? with _ | lastV
    · rw [hL, chain_doCleanup_eq] at h
      simp only [Prod.mk.injEq, Outcome.ret.injEq] at h
      exact Or.inl h.1.1.symm
    · simp only [hL] at h
      rcases hC : castTo lastV tc.retType with _ | v'
      · simp only [hC, Prod.mk.injEq] at h
        exact absurd h.1 (by simp)
      · simp only [hC, chain_doCleanup_eq, Prod.mk.injEq, Outcome.ret.injEq] at h
        obtain ⟨⟨-, hE⟩, -⟩ := h
        right
        rcases hcu : tc.cleanup with _ | (_ | ce)
        · rw [hcu] at hE; simp [cleanupAdjust] at hE
        · rw [hcu] at hE; simp [cleanupAdjust] at hE
        · rw [hcu] at hE
          simp only [cleanupAdjust, goJoin, Option.some.injEq] at hE
          exact ⟨ce, rfl, hE.symm⟩
  | cons t rest ih =>
    intro i cur v e evs h
    rw [runLoop_cons] at h
    rcases hCtx : ctxErrAt ctx i with _ | e0
    · simp only [hCtx, task_run_eq] at h
      rcases hE : cleanupAdjust t.cleanup (taskBodyErr t cur) with _ | e1
      · simp only [hE] at h
        rcases hR : runLoop tc ctx (i + 1) rest (taskRunVals t cur) with ⟨o, evs2⟩
        simp only [hR, withEvents, Prod.mk.injEq] at h
        obtain ⟨rfl, rfl⟩ := h
        exact ih (i + 1) (taskRunVals t cur) v e evs2 hR
      · simp only [hE, chain_doCleanup_eq, withEvents, Prod.mk.injEq,
          Outcome.ret.injEq] at h
        exact Or.inl h.1.1.symm
    · simp only [hCtx, chain_doCleanup_eq, Prod.mk.injEq, Outcome.ret.injEq] at h
      exact Or.inl h.1.1.symm

/-- C3 (amended): whenever `Run` returns a non-nil error, the returned
value is the zero value of the chain's result type, except on the one
path where every task succeeded and only the chain's cleanup failed — then
the computed value is returned alongside exactly the cleanup's joined
error. -/
theorem C3_amended_zero_value_on_failure :
    ∀ (tc : TaskChain) (ctx : Ctx) (params : List Value) (v : Value)
      (e : GoError) (evs : List Event),
      tc.run ctx params = (Outcome.ret v (some e), evs) →
      v = zeroVal tc.retType ∨
        ∃ ce, tc.cleanup = some (some ce) ∧ e = GoError.join1 ce := by
  intro tc ctx params v e evs h
  rcases hts : tc.tasks with _ | ⟨t0, rest⟩
  · rw [chainRun_nil tc ctx params hts, chain_doCleanup_eq] at h
    simp only [Prod.mk.injEq, Outcome.ret.injEq] at h
    exact Or.inl h.1.1.symm
  · rw [chainRun_cons tc ctx params t0 rest hts] at h
    rcases hV : verifyInitialParams t0.fnIn params with _ | e1 | m
    · simp only [hV] at h
      exact runLoop_ret_err_zero tc ctx (t0 :: rest) 0 params v e evs h
    · simp only [hV, chain_doCleanup_eq, Prod.mk.injEq, Outcome.ret.injEq] at h
      exact Or.inl h.1.1.symm
    · simp only [hV, Prod.mk.injEq] at h
      exact absurd h.1 (by simp)

/-- C3 amended witness: at the `cfgC3` scenario — all tasks succeed, the
chain cleanup fails — the theorem yields the cleanup-failure disjunct. -/
theorem C3_amended_zero_value_on_failure_witness :
    Value.vInt 5 = zeroVal tcC3.retType ∨
      ∃ ce, tcC3.cleanup = some (some ce) ∧ GoError.join1 ceC3 = GoError.join1 ce := by
  exact C3_amended_zero_value_on_failure tcC3 bgCtx [] (Value.vInt 5)
    (GoError.join1 ceC3) [Event.body "five", Event.chainCleanup] rfl

/-- C5: a chain whose task sequence is empty after nil-filtering is built
with no cleanup and no tasks, and its `Run`, with any context and any
argument list, returns the zero value of `T` and no error (and performs
nothing). -/
theorem C5_empty_chain_zero_and_nil :
    ∀ (T : GoType) (config : TaskChainConfig) (tc : TaskChain) (ctx : Ctx)
      (params : List Value),
      config.tasks.filterMap id = [] →
      NewTaskChain T config = Except.ok tc →
      tc.run ctx params = (Outcome.ret (zeroVal T) none, []) := by
  intro T config tc ctx params hf h
  unfold NewTaskChain at h
  simp only [hf, List.getLast?_nil, Except.ok.injEq] at h
  subst h
  rfl

/-- C5 witness: the `must filter nil tasks` scenario, a config of three
nil tasks run with a nil context and no arguments. -/
theorem C5_empty_chain_zero_and_nil_witness :
    emptyChainS.run none [] = (Outcome.ret (zeroVal GoType.tStruct0) none, []) := by
  exact C5_empty_chain_zero_and_nil GoType.tStruct0 cfgNils emptyChainS none [] rfl rfl

/-- C7: for every task the constructor produces, `hasErrorOut` holds iff
the callable declares at least one output whose last declared type is
assignable to the `error` interface, and `returnValueTypes` is exactly the
leading declared output types in order, of length the declared output
count minus one iff `hasErrorOut`. -/
theorem C7_constructor_invariants :
    ∀ (nm : String) (cu : Option (Option GoError)) (fnIn fnOut : List GoType)
      (body : List Value → List Value),
      ((mkTask nm cu fnIn fnOut body).hasErrorOut = true ↔
        ∃ lt, fnOut.getLast? = some lt ∧ assignableTo lt GoType.tError = true) ∧
      (mkTask nm cu fnIn fnOut body).returnValueTypes.length =
        fnOut.length -
          (if (mkTask nm cu fnIn fnOut body).hasErrorOut then 1 else 0) ∧
      (mkTask nm cu fnIn fnOut body).returnValueTypes =
        fnOut.take (fnOut.length -
          (if (mkTask nm cu fnIn fnOut body).hasErrorOut then 1 else 0)) := by
  intro nm cu fnIn fnOut body
  refine ⟨?_, ?_, ?_⟩
  · show hasErrorOutFn fnOut = true ↔ _
    unfold hasErrorOutFn
    rcases hL : fnOut.getLast? with _ | lt
    · simp
    · simp [hL]
  · show (getReturnValueTypes fnOut (hasErrorOutFn fnOut)).length =
      fnOut.length - (if hasErrorOutFn fnOut then 1 else 0)
    unfold getReturnValueTypes
    by_cases h : fnOut.length = 0
    · simp [h, List.length_eq_zero.mp h]
    · simp only [h, if_false, List.length_take]
      omega
  · show getReturnValueTypes fnOut (hasErrorOutFn fnOut) =
      fnOut.take (fnOut.length - (if hasErrorOutFn fnOut then 1 else 0))
    unfold getReturnValueTypes
    by_cases h : fnOut.length = 0
    · simp [h, List.length_eq_zero.mp h]
    · simp [h]

/-- The cleanup events of a chain contain no body event. -/
theorem chainCleanupEvs_countP_body (cu : Option (Option GoError)) :
    (chainCleanupEvs cu).countP isBodyEv = 0 := by
  rcases cu with _ | _ <;> simp [chainCleanupEvs, List.countP_cons, isBodyEv]

/-- A task's trace events carry exactly one body event. -/
theorem taskTrace_countP_body (t : Task) :
    (Event.body t.name :: taskCleanupEvs t).countP isBodyEv = 1 := by
  rcases hcu : t.cleanup with _ | _ <;>
    simp [taskCleanupEvs, hcu, List.countP_cons, isBodyEv]

/-- When the context check before the `k`-th remaining task is the first
to report an error, and the tasks before it all succeed, the loop stops
there: exactly `k` task bodies have run and the loop returns the zero
value with the context's error (adjusted by the chain cleanup hook). -/
theorem runLoop_ctx_cancel (tc : TaskChain) (f : Nat → Option GoError) (e : GoError) :
    ∀ (k : Nat) (ts : List Task) (i : Nat) (cur cur' : List Value),
      (∀ j, j < k → f (i + j) = none) →
      f (i + k) = some e →
      stepValues ts cur k = some cur' →
      k < ts.length →
      ∃ evs, runLoop tc (some f) i ts cur =
        (Outcome.ret (zeroVal tc.retType) (cleanupAdjust tc.cleanup (some e)), evs) ∧
        evs.countP isBodyEv = k := by
  intro k
  induction k with
  | zero =>
    intro ts i cur cur' hlt hk hs hlen
    rcases ts with _ | ⟨t, rest⟩
    · simp at hlen
    · rw [runLoop_cons]
      have hctx : ctxErrAt (some f) i = some e := by
        show f i = some e
        simpa using hk
      simp only [hctx, chain_doCleanup_eq]
      exact ⟨chainCleanupEvs tc.cleanup, rfl, chainCleanupEvs_countP_body tc.cleanup⟩
  | succ k ih =>
    intro ts i cur cur' hlt hk hs hlen
    rcases ts with _ | ⟨t, rest⟩
    · simp [stepValues] at hs
    · have h0 : ctxErrAt (some f) i = none := by
        show f i = none
        simpa using hlt 0 (Nat.succ_pos k)
      rw [runLoop_cons]
      simp only [h0, task_run_eq]
      unfold stepValues at hs
      simp only [task_run_eq] at hs
      rcases hE : cleanupAdjust t.cleanup (taskBodyErr t cur) with _ | e1
      · simp only [hE] at hs ⊢
        have hlt' : ∀ j, j < k → f (i + 1 + j) = none := by
          intro j hj
          have := hlt (j + 1) (by omega)
          rw [show i + (j + 1) = i + 1 + j by omega] at this
          exact this
        have hk' : f (i + 1 + k) = some e := by
          rw [show i + 1 + k = i + (k + 1) by omega]
          exact hk
        have hlen' : k < rest.length := by
          simpa using Nat.lt_of_succ_lt_succ (by simpa using hlen)
        obtain ⟨evs, heq, hcount⟩ :=
          ih rest (i + 1) (taskRunVals t cur) cur' hlt' hk' hs hlen'
        refine ⟨(Event.body t.name :: taskCleanupEvs t) ++ evs, ?_, ?_⟩
        · simp only [withEvents, heq]
        · rw [List.countP_append, taskTrace_countP_body, hcount]
          omega
      · simp only [hE] at hs
        exact Option.noConfusion hs

/-- C4: if the context check before task `k` is the first to report an
error and tasks `0..k-1` all succeed, then only those `k` task bodies are
ever invoked — task `k` and all subsequent tasks are not — and `Run`
returns the zero value of `T` together with the context's error (adjusted
by the chain cleanup hook). -/
theorem C4_cancelled_ctx_skips_tasks :
    ∀ (tc : TaskChain) (f : Nat → Option GoError) (params : List Value)
      (k : Nat) (e : GoError) (t0 : Task) (rest : List Task) (cur : List Value),
      tc.tasks = t0 :: rest →
      verifyInitialParams t0.fnIn params = VerifyResult.ok →
      (∀ j, j < k → f j = none) →
      f k = some e →
      k < tc.tasks.length →
      stepValues tc.tasks params k = some cur →
      ∃ evs, tc.run (some f) params =
        (Outcome.ret (zeroVal tc.retType) (cleanupAdjust tc.cleanup (some e)), evs) ∧
        evs.countP isBodyEv = k := by
  intro tc f params k e t0 rest cur hts hV hlt hk hlen hs
  rw [chainRun_cons tc (some f) params t0 rest hts]
  simp only [hV]
  rw [hts] at hs hlen
  exact runLoop_ctx_cancel tc f e k (t0 :: rest) 0 params cur
    (by simpa using hlt) (by simpa using hk) hs hlen

/-- C4 witness: the `must exit on context cancelled` scenario — the first
task body cancels the context, the second task never runs, and `Run`
returns the zero value of `any` with `context.Canceled`. -/
theorem C4_cancelled_ctx_skips_tasks_witness :
    ∃ evs, tcC4.run (some fC4) [] =
      (Outcome.ret (zeroVal tcC4.retType)
        (cleanupAdjust tcC4.cleanup (some ctxCanceledErr)), evs) ∧
      evs.countP isBodyEv = 1 := by
  exact C4_cancelled_ctx_skips_tasks tcC4 fC4 [] 1 ctxCanceledErr noopTask1
    [noopTask2] [] rfl rfl
    (by intro j hj; have hj0 : j = 0 := by omega
        subst hj0; rfl)
    rfl (by decide) rfl

/-- Inversion of a successful chain construction: the built chain carries
the requested result type, and `verifyReturnType` accepted its last task
(when one exists). -/
theorem newTaskChain_ok_inv (T : GoType) (cfg : TaskChainConfig) (tc : TaskChain)
    (h : NewTaskChain T cfg = Except.ok tc) :
    tc.retType = T ∧
    ∀ lt, tc.tasks.getLast? = some lt → verifyReturnType T lt = none := by
  unfold NewTaskChain at h
  rcases hgl : (cfg.tasks.filterMap id).getLast? with _ | l
  · simp only [hgl, Except.ok.injEq] at h
    subst h
    refine ⟨rfl, ?_⟩
    intro lt hlt
    simp at hlt
  · simp only [hgl] at h
    rcases hadj : verifyAdjacentPairs (cfg.tasks.filterMap id) with _ | e1
    · simp only [hadj] at h
      rcases hrt : verifyReturnType T l with _ | e2
      · simp only [hrt, Except.ok.injEq] at h
        subst h
        refine ⟨rfl, ?_⟩
        intro lt hlt
        simp only at hlt
        rw [hgl] at hlt
        obtain rfl : l = lt := by
          simpa using hlt
        exact hrt
      · simp only [hrt] at h
        exact Except.noConfusion h
    · simp only [hadj] at h
      exact Except.noConfusion h

/-- C9: `verifyReturnType` inspects the raw final declared output type of
the last task — the error slot included — so a chain whose last task has an
error out is only built when the error slot's type is assignable to `T`;
in particular construction with concrete result type `int` fails for a
last task returning `(int, error)`, reporting the `error`/`int`
mismatch. -/
theorem C9_raw_last_output_checked :
    (∀ (T : GoType) (cfg : TaskChainConfig) (tc : TaskChain) (lt : Task)
      (o : GoType),
      NewTaskChain T cfg = Except.ok tc →
      tc.tasks.getLast? = some lt →
      lt.hasErrorOut = true →
      lt.fnOut.getLast? = some o →
      assignableTo o T = true) ∧
    NewTaskChain GoType.tInt cfgIntErr =
      Except.error (.wrap "failed to create task \x27c9\x27: "
        (.mk "return type error is not compatible to the last output type: int")) := by
  constructor
  · intro T cfg tc lt o h hlast _ ho
    have hrt := (newTaskChain_ok_inv T cfg tc h).2 lt hlast
    unfold verifyReturnType at hrt
    rw [ho] at hrt
    simp at hrt
    exact hrt
  · rfl

/-- C9 witness: a chain over the same `(int, error)` last task built with
result type `any` succeeds — and the theorem then yields that the raw
`error` slot, not the delivered `int`, is what was checked against the
result type. -/
theorem C9_raw_last_output_checked_witness :
    assignableTo GoType.tError GoType.tAny = true := by
  exact C9_raw_last_output_checked.1 GoType.tAny cfgC9W tcC9W lastIntErrTask
    GoType.tError rfl rfl rfl rfl

/-- Assignability is transitive on the modelled types. -/
theorem assignableTo_trans (a b c : GoType) (h1 : assignableTo a b = true)
    (h2 : assignableTo b c = true) : assignableTo a c = true := by
  revert h2
  revert h1
  rcases a <;> rcases b <;> rcases c <;> decide

/-- Running a whole task list to completion means the final values are
what the last task's run delivered, error-free. -/
theorem stepValues_full_last (lt : Task) :
    ∀ (ts : List Task) (cur fin : List Value),
      stepValues ts cur ts.length = some fin →
      ts.getLast? = some lt →
      ∃ prev, (lt.run prev).1 = (fin, none) := by
  intro ts
  induction ts with
  | nil =>
    intro cur fin _ hl
    simp at hl
  | cons t rest ih =>
    intro cur fin hs hl
    have hs' : stepValues (t :: rest) cur (rest.length + 1) = some fin := by
      simpa using hs
    unfold stepValues at hs'
    rcases hrun : (t.run cur).1 with ⟨vals, err⟩
    rw [hrun] at hs'
    rcases err with _ | e
    · rcases rest with _ | ⟨r, rrest⟩
      · obtain rfl : t = lt := by simpa using hl
        obtain rfl : vals = fin := by simpa [stepValues] using hs'
        exact ⟨cur, hrun⟩
      · have hl' : (r :: rrest).getLast? = some lt := by
          rw [← List.getLast?_cons_cons]
          exact hl
        exact ih vals fin (by simpa using hs') hl'
    · exact Option.noConfusion hs'

/-- In a pointwise-typed value list, the last value is typed by the last
type. -/
theorem valsHaveTypes_getLast :
    ∀ (vs : List Value) (tys : List GoType) (v : Value),
      valsHaveTypes vs tys = true →
      vs.getLast? = some v →
      ∃ ty, tys.getLast? = some ty ∧ valHasType v ty = true := by
  intro vs
  induction vs with
  | nil =>
    intro tys v _ hl
    simp at hl
  | cons v0 vrest ih =>
    intro tys v ht hl
    rcases tys with _ | ⟨ty0, tyrest⟩
    · simp [valsHaveTypes] at ht
    · have ht' : valHasType v0 ty0 = true ∧ valsHaveTypes vrest tyrest = true := by
        simpa [valsHaveTypes, Bool.and_eq_true] using ht
      rcases vrest with _ | ⟨v1, vrest'⟩
      · obtain rfl : v0 = v := by simpa using hl
        rcases tyrest with _ | ⟨ty1, tyrest'⟩
        · exact ⟨ty0, rfl, ht'.1⟩
        · simp [valsHaveTypes] at ht'
      · have hl' : (v1 :: vrest').getLast? = some v := by
          rw [← List.getLast?_cons_cons]
          exact hl
        obtain ⟨ty, hty, hvt⟩ := ih tyrest v ht'.2 hl'
        refine ⟨ty, ?_, hvt⟩
        rcases tyrest with _ | ⟨ty1, tyrest'⟩
        · simp at hty
        · rw [List.getLast?_cons_cons]
          exact hty

/-- A task list that runs to completion under a nil context drives the
loop to its final step with the final values. -/
theorem runLoop_full (tc : TaskChain) :
    ∀ (ts : List Task) (i : Nat) (cur fin : List Value),
      stepValues ts cur ts.length = some fin →
      ∃ evs, runLoop tc none i ts cur =
        withEvents evs (runLoop tc none (i + ts.length) [] fin) := by
  intro ts
  induction ts with
  | nil =>
    intro i cur fin hs
    obtain rfl : cur = fin := by simpa [stepValues] using hs
    exact ⟨[], by simp [withEvents]⟩
  | cons t rest ih =>
    intro i cur fin hs
    have hs' : stepValues (t :: rest) cur (rest.length + 1) = some fin := by
      simpa using hs
    unfold stepValues at hs'
    rw [runLoop_cons]
    have hctx : ctxErrAt none i = none := rfl
    simp only [hctx, task_run_eq]
    simp only [task_run_eq] at hs'
    rcases hE : cleanupAdjust t.cleanup (taskBodyErr t cur) with _ | e1
    · simp only [hE] at hs' ⊢
      obtain ⟨evs, heq⟩ := ih (i + 1) (taskRunVals t cur) fin hs'
      refine ⟨(Event.body t.name :: taskCleanupEvs t) ++ evs, ?_⟩
      rw [heq, show i + 1 + rest.length = i + (rest.length + 1) from by omega]
      simp [withEvents, List.append_assoc]
    · simp only [hE] at hs'
      exact Option.noConfusion hs'

/-- C2 (amended): for a successfully constructed chain whose last task has
no error out and whose last task's body returns non-nil values of its
declared output types, a run that executes all tasks and ends with a
non-empty value sequence has a last element assignable to the chain's
result type `T`, and the narrowing cast at the chain's exit succeeds —
`Run` returns that element (with the chain cleanup's error adjustment).
When the last task does have an error out, `verifyReturnType` checks the
error slot instead and the guarantee fails (see the counterexample). -/
theorem C2_amended_cast_safe_without_error_out :
    ∀ (T : GoType) (cfg : TaskChainConfig) (tc : TaskChain) (lt : Task)
      (t0 : Task) (rest : List Task) (params fin : List Value) (lastV : Value),
      NewTaskChain T cfg = Except.ok tc →
      tc.tasks = t0 :: rest →
      tc.tasks.getLast? = some lt →
      lt.hasErrorOut = false →
      (∀ args, valsHaveTypes (lt.body args) lt.fnOut = true) →
      verifyInitialParams t0.fnIn params = VerifyResult.ok →
      stepValues tc.tasks params tc.tasks.length = some fin →
      fin.getLast? = some lastV →
      (∃ d, dynType lastV = some d ∧ assignableTo d T = true) ∧
      (∃ evs, tc.run none params =
        (Outcome.ret lastV (cleanupAdjust tc.cleanup none), evs)) := by
  intro T cfg tc lt t0 rest params fin lastV hok hts hlast hEO hwt hV hs hfl
  obtain ⟨hrT, hinv⟩ := newTaskChain_ok_inv T cfg tc hok
  have hrt := hinv lt hlast
  obtain ⟨prev, hprev⟩ := stepValues_full_last lt tc.tasks params fin hs hlast
  rw [task_run_eq] at hprev
  have hfin : fin = taskRunVals lt prev := by
    have := congrArg Prod.fst hprev
    simpa using this.symm
  have hfin' : fin = lt.body prev := by
    rw [hfin]
    unfold taskRunVals
    rw [hEO]
    simp
  have hwt' : valsHaveTypes fin lt.fnOut = true := by
    rw [hfin']
    exact hwt prev
  obtain ⟨ty, hty, hvt⟩ := valsHaveTypes_getLast fin lt.fnOut lastV hwt' hfl
  have haty : assignableTo ty T = true := by
    unfold verifyReturnType at hrt
    rw [hty] at hrt
    simp at hrt
    exact hrt
  obtain ⟨d, hd, hdty⟩ : ∃ d, dynType lastV = some d ∧ assignableTo d ty = true := by
    unfold valHasType at hvt
    rcases hdt : dynType lastV with _ | d
    · rw [hdt] at hvt
      exact Bool.noConfusion hvt
    · rw [hdt] at hvt
      exact ⟨d, rfl, hvt⟩
  have hdT : assignableTo d T = true := assignableTo_trans d ty T hdty haty
  refine ⟨⟨d, hd, hdT⟩, ?_⟩
  rw [chainRun_cons tc none params t0 rest hts]
  simp only [hV]
  rw [← hts]
  obtain ⟨evs, heq⟩ := runLoop_full tc tc.tasks 0 params fin hs
  rw [hts] at heq ⊢
  rw [heq, runLoop_nil]
  simp only [hfl]
  have hcast : castTo lastV tc.retType = some lastV := by
    simp [castTo, hd, hrT, hdT]
  simp only [hcast, chain_doCleanup_eq]
  exact ⟨evs ++ chainCleanupEvs tc.cleanup, rfl⟩

/-- C2 amended witness: the one-task chain `func() int` with result type
`int` — all hypotheses hold and the exit cast delivers the computed `7`. -/
theorem C2_amended_cast_safe_without_error_out_witness :
    (∃ d, dynType (Value.vInt 7) = some d ∧ assignableTo d GoType.tInt = true) ∧
    (∃ evs, tcC2W.run none [] =
      (Outcome.ret (Value.vInt 7) (cleanupAdjust tcC2W.cleanup none), evs)) := by
  exact C2_amended_cast_safe_without_error_out GoType.tInt cfgC2W tcC2W
    sevenTask sevenTask [] [] [Value.vInt 7] (Value.vInt 7)
    rfl rfl rfl rfl (fun _ => rfl) rfl rfl rfl

/-- C6 witness: the joined error of the `must join Cleanup error` task and
the single chain-cleanup event of the `cfgC3` chain, obtained from the
claim's theorem at those concrete inputs. -/
theorem C6_cleanup_exactly_once_witness :
    (errBothTask.run []).1.2 = some (GoError.join2 cleanupErrC6 taskErrC6) ∧
    [Event.body "five", Event.chainCleanup].count Event.chainCleanup = 1 := by
  constructor
  · exact (C6_cleanup_exactly_once.1 errBothTask []).2.2 cleanupErrC6 taskErrC6 rfl rfl
  · exact (C6_cleanup_exactly_once.2 tcC3 bgCtx []
      (Value.vInt 5) (some (GoError.join1 ceC3))
      [Event.body "five", Event.chainCleanup] rfl).1

end Grace
